import Mathlib

/-!
# Verification of the resumate scoring and selection engine

Shallow embedding of the hierarchical bullet-scoring and diversity-constrained
selection engine of the `resumate` repository:

* data model from `crates/shared-types/src/lib.rs` (re-exported by
  `resume-core` and by the doc-gen core crate);
* scoring from `crates/resume-core/src/scoring.rs`
  (`score_bullet`, `calculate_tag_relevance`, `calculate_company_multiplier`,
  `calculate_position_multiplier`);
* selection from `doc-gen/crates/core/src/selector.rs`
  (`select_bullets`, `score_description_as_bullet`,
  `apply_diversity_constraints`).

Modelling conventions:

* Rust `f32` values are modelled as exact rationals (`ℚ`); every arithmetic
  operation of the source is mirrored by the corresponding exact operation.
  A separate, explicit IEEE-754 binary32 round-to-nearest-even model
  (`round32`) is used where a claim is about the bit-level float result.
* Rust `HashMap<Tag, f32>` is modelled as an association list
  (`List (Tag × ℚ)`); the code only ever calls `get` and `is_empty` on it,
  both of which are modelled below.  `u8`/`usize` are modelled as `ℕ`
  (no overflow is reachable in this code: priorities are 1..10 and counters
  are bounded by list lengths).
* The imperative push/`continue`/`break` loop of `apply_diversity_constraints`
  is modelled by structural recursion with the accumulated output and the two
  counter maps as explicit state.
-/

namespace Resumate

/-! ## Embedded definitions -/

/-- Type `Tag` from `shared-types`: an opaque string label. -/
abbrev Tag := String

/-- Model of `HashMap<Tag, f32>`: an association list.  The engine only uses
point lookups (`HashMap::get`) and the emptiness test on this map. -/
abbrev TagWeights := List (Tag × ℚ)

/-- Model of `HashMap::get`: the value of the first entry with the given key. -/
def TagWeights.get (m : TagWeights) (tag : Tag) : Option ℚ :=
  (m.find? (fun entry => entry.1 == tag)).map (fun entry => entry.2)

/-- Structure `Bullet` from `shared-types` (leaf of the experience hierarchy). -/
structure Bullet where
  id : String
  name : Option String
  location : Option String
  dateStart : Option String
  dateEnd : Option String
  summary : Option String
  description : String
  tags : List Tag
  priority : ℕ
  link : Option String
deriving DecidableEq

/-- Structure `Position` from `shared-types` (role within a company). -/
structure Position where
  id : String
  name : String
  location : Option String
  dateStart : String
  dateEnd : Option String
  summary : Option String
  description : Option String
  tags : List Tag
  priority : ℕ
  link : Option String
  children : List Bullet
deriving DecidableEq

/-- Structure `Company` from `shared-types` (top of the experience hierarchy). -/
structure Company where
  id : String
  name : Option String
  location : Option String
  dateStart : String
  dateEnd : Option String
  summary : Option String
  description : Option String
  tags : List Tag
  priority : ℕ
  link : Option String
  children : List Position
deriving DecidableEq

/-- Structure `ScoringWeights` from `shared-types`. -/
structure ScoringWeights where
  tagRelevance : ℚ
  priority : ℚ
deriving DecidableEq

/-- Structure `RoleProfile` from `shared-types`. -/
structure RoleProfile where
  id : String
  name : String
  description : Option String
  tagWeights : TagWeights
  scoringWeights : ScoringWeights
deriving DecidableEq

/-- Structure `PersonalInfo` from `shared-types`. -/
structure PersonalInfo where
  name : String
  nickname : Option String
  tagline : Option String
  email : Option String
  phone : Option String
  location : Option String
  linkedin : Option String
  github : Option String
  website : Option String
  twitter : Option String
deriving DecidableEq

/-- Structure `Education` from `shared-types`. -/
structure Education where
  degree : String
  degreeType : String
  institution : String
  location : String
  year : String
  coursework : Option (List String)
  societies : Option (List String)
deriving DecidableEq

/-- Structure `ResumeData` from `shared-types` (root object). -/
structure ResumeData where
  personal : PersonalInfo
  summary : Option String
  experience : List Company
  education : Option (List Education)
  skills : Option (List (String × List String))
  roleProfiles : Option (List RoleProfile)
deriving DecidableEq

/-- Function `calculate_tag_relevance` (scoring.rs:56-77): average weight of the tags
that have an entry in `tag_weights`; `0.0` if the tag list or the weight map
is empty, or if no tag matches. -/
def calculate_tag_relevance (bullet_tags : List Tag) (tag_weights : TagWeights) : ℚ :=
  if bullet_tags.isEmpty || tag_weights.isEmpty then 0
  else
    let acc := bullet_tags.foldl
      (fun (acc : ℚ × ℕ) tag =>
        match tag_weights.get tag with
        | some weight => (acc.1 + weight, acc.2 + 1)
        | none => acc)
      (0, 0)
    if acc.2 = 0 then 0 else acc.1 / (acc.2 : ℚ)

/-- Function `calculate_company_multiplier` (scoring.rs:80-83). -/
def calculate_company_multiplier (company : Company) : ℚ :=
  0.8 + (company.priority : ℚ) / 10 * 0.4

/-- Function `calculate_position_multiplier` (scoring.rs:86-99). -/
def calculate_position_multiplier (position : Position) (tag_weights : TagWeights) : ℚ :=
  let priority_multiplier := 0.8 + (position.priority : ℚ) / 10 * 0.4
  let tag_multiplier :=
    if !position.tags.isEmpty then
      let tag_score := calculate_tag_relevance position.tags tag_weights
      0.9 + tag_score * 0.2
    else 1
  priority_multiplier * tag_multiplier

/-- Function `score_bullet` (scoring.rs:31-53). -/
def score_bullet (bullet : Bullet) (position : Position) (company : Company)
    (role_profile : RoleProfile) : ℚ :=
  let weights := role_profile.scoringWeights
  let tag_score := calculate_tag_relevance bullet.tags role_profile.tagWeights
  let priority_score := (bullet.priority : ℚ) / 10
  let base_score := tag_score * weights.tagRelevance + priority_score * weights.priority
  let company_multiplier := calculate_company_multiplier company
  let position_multiplier := calculate_position_multiplier position role_profile.tagWeights
  base_score * company_multiplier * position_multiplier

/-- The closed-form score formula exactly as claim C1 states it:
`baseScore * companyMultiplier * positionMultiplier` with every factor spelled
out. -/
def score_bullet_claim_formula (bullet : Bullet) (position : Position) (company : Company)
    (role_profile : RoleProfile) : ℚ :=
  let tagWeights := role_profile.tagWeights
  let scoringWeights := role_profile.scoringWeights
  let baseScore :=
    calculate_tag_relevance bullet.tags tagWeights * scoringWeights.tagRelevance
      + (bullet.priority : ℚ) / 10 * scoringWeights.priority
  let companyMultiplier := 0.8 + (company.priority : ℚ) / 10 * 0.4
  let positionMultiplier :=
    (0.8 + (position.priority : ℚ) / 10 * 0.4)
      * (if position.tags ≠ [] then
          0.9 + calculate_tag_relevance position.tags tagWeights * 0.2
        else 1)
  baseScore * companyMultiplier * positionMultiplier

/-- Tag relevance exactly as claim C2 states it: the sum of the weights of the
tags that have an entry in the map, divided by the number of such matched tags;
`0.0` when nothing matches. -/
def tag_relevance_claim_formula (tags : List Tag) (tag_weights : TagWeights) : ℚ :=
  let matched := tags.filter (fun tag => (tag_weights.get tag).isSome)
  if matched.isEmpty then 0
  else (matched.map (fun tag => (tag_weights.get tag).getD 0)).sum / (matched.length : ℚ)

/-- Structure `ScoredBullet` of the doc-gen core crate, exactly the fields constructed by
`select_bullets` in selector.rs. -/
structure ScoredBullet where
  bullet : Bullet
  score : ℚ
  companyId : String
  companyName : Option String
  positionId : String
  positionName : String
deriving DecidableEq

/-- Structure `SelectionConfig` (selector.rs:8-16): `max_bullets` is a plain `usize`,
the per-company and per-position caps are optional. -/
structure SelectionConfig where
  maxBullets : ℕ
  maxPerCompany : Option ℕ
  maxPerPosition : Option ℕ
deriving DecidableEq

/-- Constructor `SelectionConfig::default()` (selector.rs:18-26). -/
def SelectionConfig.default : SelectionConfig :=
  { maxBullets := 18, maxPerCompany := some 6, maxPerPosition := some 4 }

/-- Function `score_description_as_bullet` (selector.rs:68-98): turn a position
description into a virtual bullet and score it with `score_bullet`. -/
def score_description_as_bullet (position : Position) (company : Company)
    (role_profile : RoleProfile) : ScoredBullet :=
  let desc_as_bullet : Bullet :=
    { id := position.id ++ "-description"
      name := none
      location := none
      dateStart := none
      dateEnd := none
      summary := none
      description := position.description.getD ""
      tags := position.tags
      priority := position.priority
      link := none }
  let score := score_bullet desc_as_bullet position company role_profile
  { bullet := desc_as_bullet
    score := score
    companyId := company.id
    companyName := company.name
    positionId := position.id
    positionName := position.name }

/-- Phase 1 of `select_bullets` (selector.rs:34-58): walk every company and
position, push one virtual bullet when `position.description.is_some()`, then
push every real bullet, each scored by `score_bullet`. -/
def generate_candidates (resume_data : ResumeData) (role_profile : RoleProfile) :
    List ScoredBullet :=
  resume_data.experience.flatMap fun company =>
    company.children.flatMap fun position =>
      (if position.description.isSome then
          [score_description_as_bullet position company role_profile]
        else [])
        ++ position.children.map fun bullet =>
          { bullet := bullet
            score := score_bullet bullet position company role_profile
            companyId := company.id
            companyName := company.name
            positionId := position.id
            positionName := position.name }

/-- The `count >= cap` test for an optional cap (no cap means never reached). -/
def capReached (cap : Option ℕ) (count : ℕ) : Bool :=
  match cap with
  | some limit => decide (limit ≤ count)
  | none => false

/-- The loop body of `apply_diversity_constraints` (selector.rs:111-139),
with the accumulated selection and the two `HashMap<String, usize>` counters
as explicit state.  `break` returns the accumulator, `continue` recurses with
unchanged state. -/
def apply_diversity_go (config : SelectionConfig) :
    List ScoredBullet → List ScoredBullet → (String → ℕ) → (String → ℕ) →
      List ScoredBullet
  | [], selected, _, _ => selected
  | bullet :: rest, selected, company_counts, position_counts =>
    if config.maxBullets ≤ selected.length then selected
    else if capReached config.maxPerCompany (company_counts bullet.companyId) then
      apply_diversity_go config rest selected company_counts position_counts
    else if capReached config.maxPerPosition (position_counts bullet.positionId) then
      apply_diversity_go config rest selected company_counts position_counts
    else
      apply_diversity_go config rest (selected ++ [bullet])
        (fun key => if key = bullet.companyId then company_counts key + 1 else company_counts key)
        (fun key => if key = bullet.positionId then position_counts key + 1 else position_counts key)

/-- Function `apply_diversity_constraints` (selector.rs:101-142). -/
def apply_diversity_constraints (sorted_bullets : List ScoredBullet)
    (config : SelectionConfig) : List ScoredBullet :=
  apply_diversity_go config sorted_bullets [] (fun _ => 0) (fun _ => 0)

/-- Function `select_bullets` (selector.rs:29-65): generate candidates, sort by score
descending with Rust's stable `sort_by` (modelled by the stable
`List.mergeSort`; the comparator `b.score.partial_cmp(&a.score)` orders `a`
before `b` when `b.score ≤ a.score`), then apply the diversity constraints. -/
def select_bullets (resume_data : ResumeData) (role_profile : RoleProfile)
    (config : SelectionConfig) : List ScoredBullet :=
  let all_bullets := generate_candidates resume_data role_profile
  let sorted := all_bullets.mergeSort fun a b => decide (b.score ≤ a.score)
  apply_diversity_constraints sorted config

/-- Candidate generation as the amended claim C3 states it: one virtual bullet
for each position whose `description` is present (`Some`, including a present
empty string), with the stated id, tags, priority and description, scored by
the same `score_bullet`; real bullets unchanged. -/
def generate_candidates_claim_spec (resume_data : ResumeData)
    (role_profile : RoleProfile) : List ScoredBullet :=
  resume_data.experience.flatMap fun company =>
    company.children.flatMap fun position =>
      (match position.description with
        | some desc =>
          let virtual_bullet : Bullet :=
            { id := position.id ++ "-description"
              name := none
              location := none
              dateStart := none
              dateEnd := none
              summary := none
              description := desc
              tags := position.tags
              priority := position.priority
              link := none }
          [{ bullet := virtual_bullet
             score := score_bullet virtual_bullet position company role_profile
             companyId := company.id
             companyName := company.name
             positionId := position.id
             positionName := position.name }]
        | none => [])
        ++ position.children.map fun bullet =>
          { bullet := bullet
            score := score_bullet bullet position company role_profile
            companyId := company.id
            companyName := company.name
            positionId := position.id
            positionName := position.name }

/-- A personal-info record; its contents are irrelevant to selection. -/
def example_personal : PersonalInfo :=
  { name := "Test", nickname := none, tagline := none, email := none,
    phone := none, location := none, linkedin := none, github := none,
    website := none, twitter := none }

/-- A position whose `description` is present but is the empty string. -/
def position_with_empty_desc : Position :=
  { id := "p1", name := "Engineer", location := none, dateStart := "2020",
    dateEnd := none, summary := none, description := some "", tags := [],
    priority := 5, link := none, children := [] }

/-- A company holding only `position_with_empty_desc`. -/
def company_with_empty_desc : Company :=
  { id := "c1", name := some "Acme", location := none, dateStart := "2020",
    dateEnd := none, summary := none, description := none, tags := [],
    priority := 5, link := none, children := [position_with_empty_desc] }

/-- Resume data whose only position has `description = Some("")`. -/
def resume_with_empty_desc : ResumeData :=
  { personal := example_personal, summary := none,
    experience := [company_with_empty_desc], education := none,
    skills := none, roleProfiles := none }

/-- A simple role profile with integer weights. -/
def example_profile : RoleProfile :=
  { id := "r", name := "Role", description := none,
    tagWeights := [("engineering", 1)],
    scoringWeights := { tagRelevance := 0, priority := 1 } }

/-- Division producing `none` where IEEE float division would produce NaN
(zero denominator with zero numerator is the only division this code can
reach with a zero denominator). -/
def checked_div (a b : ℚ) : Option ℚ :=
  if b = 0 then none else some (a / b)

/-- Function `calculate_tag_relevance` with its single division made fallible: `none`
marks the NaN that `total_weight / matched_tags` would produce in `f32` if the
`matched_tags == 0` guard were absent. -/
def calculate_tag_relevance_checked (bullet_tags : List Tag)
    (tag_weights : TagWeights) : Option ℚ :=
  if bullet_tags.isEmpty || tag_weights.isEmpty then some 0
  else
    let acc := bullet_tags.foldl
      (fun (acc : ℚ × ℕ) tag =>
        match tag_weights.get tag with
        | some weight => (acc.1 + weight, acc.2 + 1)
        | none => acc)
      (0, 0)
    if acc.2 = 0 then some 0 else checked_div acc.1 (acc.2 : ℚ)

/-- Function `calculate_position_multiplier` over the fallible tag relevance. -/
def calculate_position_multiplier_checked (position : Position)
    (tag_weights : TagWeights) : Option ℚ :=
  let priority_multiplier := 0.8 + (position.priority : ℚ) / 10 * 0.4
  if !position.tags.isEmpty then
    (calculate_tag_relevance_checked position.tags tag_weights).map
      (fun tag_score => priority_multiplier * (0.9 + tag_score * 0.2))
  else some (priority_multiplier * 1)

/-- Function `score_bullet` over the fallible tag relevance: `none` would mean a NaN
score, on which the sort comparator `partial_cmp(..).unwrap()` would panic. -/
def score_bullet_checked (bullet : Bullet) (position : Position)
    (company : Company) (role_profile : RoleProfile) : Option ℚ := do
  let tag_score ← calculate_tag_relevance_checked bullet.tags role_profile.tagWeights
  let position_multiplier ←
    calculate_position_multiplier_checked position role_profile.tagWeights
  some ((tag_score * role_profile.scoringWeights.tagRelevance
      + (bullet.priority : ℚ) / 10 * role_profile.scoringWeights.priority)
    * calculate_company_multiplier company * position_multiplier)

/-- Modelled from the spec: `SelectionConfig` of the resume-core selector
(declared as `pub mod selector` in `crates/resume-core/src/lib.rs` but the
module source is not in the tree; its integration tests construct exactly
these four fields).  Spec §3/§6: `maxBullets` (optional, unbounded when
absent), `maxPerCompany` (optional), `minPerCompany` (optional,
informational — not enforced), `maxPerPosition` (optional). -/
structure SelectionConfigFull where
  maxBullets : Option ℕ
  maxPerCompany : Option ℕ
  minPerCompany : Option ℕ
  maxPerPosition : Option ℕ
deriving DecidableEq

/-- Modelled from the spec (§4.2 Phase 2): the resume-core selection loop —
identical to the doc-gen loop except that the total cap is optional; the
spec states `minPerCompany` is not consulted by the greedy single pass. -/
def apply_diversity_go_full (config : SelectionConfigFull) :
    List ScoredBullet → List ScoredBullet → (String → ℕ) → (String → ℕ) →
      List ScoredBullet
  | [], selected, _, _ => selected
  | bullet :: rest, selected, company_counts, position_counts =>
    if capReached config.maxBullets selected.length then selected
    else if capReached config.maxPerCompany (company_counts bullet.companyId) then
      apply_diversity_go_full config rest selected company_counts position_counts
    else if capReached config.maxPerPosition (position_counts bullet.positionId) then
      apply_diversity_go_full config rest selected company_counts position_counts
    else
      apply_diversity_go_full config rest (selected ++ [bullet])
        (fun key => if key = bullet.companyId then company_counts key + 1 else company_counts key)
        (fun key => if key = bullet.positionId then position_counts key + 1 else position_counts key)

/-- Modelled from the spec (§4.2): `selectBullets` of the resume-core
selector — generate, sort descending (stable), filter by quotas. -/
def select_bullets_full (resume_data : ResumeData) (role_profile : RoleProfile)
    (config : SelectionConfigFull) : List ScoredBullet :=
  let all_bullets := generate_candidates resume_data role_profile
  let sorted := all_bullets.mergeSort fun a b => decide (b.score ≤ a.score)
  apply_diversity_go_full config sorted [] (fun _ => 0) (fun _ => 0)

/-- A configuration whose only constraint is `minPerCompany = 2`. -/
def config_min_two : SelectionConfigFull :=
  { maxBullets := none, maxPerCompany := none, minPerCompany := some 2,
    maxPerPosition := none }

/-- Integer power of two as a rational, for binary32 scaling. -/
def pow2 (e : ℤ) : ℚ :=
  if 0 ≤ e then ((2 ^ e.toNat : ℕ) : ℚ) else (((2 ^ (-e).toNat : ℕ) : ℚ))⁻¹

/-- Fuel-bounded floor of the base-2 logarithm, for arguments at least 1. -/
def flog2F : ℕ → ℚ → ℤ
  | 0, _ => 0
  | fuel + 1, q => if q < 2 then 0 else flog2F fuel (q / 2) + 1

/-- Fuel-bounded ceiling of the base-2 logarithm, for arguments at least 1. -/
def clog2F : ℕ → ℚ → ℤ
  | 0, _ => 0
  | fuel + 1, q => if q ≤ 1 then 0 else clog2F fuel (q / 2) + 1

/-- Floor of the base-2 logarithm of a positive rational (64 bits of fuel
cover every magnitude reachable in this code). -/
def floorLog2 (q : ℚ) : ℤ :=
  if 1 ≤ q then flog2F 64 q else -(clog2F 64 q⁻¹)

/-- Round a nonnegative rational to the nearest IEEE-754 binary32 value
(24-bit significand, round-to-nearest, ties to even; overflow and subnormals
are outside the magnitudes used here). -/
def round32pos (a : ℚ) : ℚ :=
  let e := floorLog2 a - 23
  let scaled := a / pow2 e
  let low := ⌊scaled⌋
  let rem := scaled - (low : ℚ)
  let mantissa : ℤ :=
    if rem < 1 / 2 then low
    else if 1 / 2 < rem then low + 1
    else if low % 2 = 0 then low else low + 1
  (mantissa : ℚ) * pow2 e

/-- Round a rational to the nearest binary32 value. -/
def round32 (q : ℚ) : ℚ :=
  if q < 0 then -(round32pos (-q)) else round32pos q

/-- Bit-level binary32 evaluation of `calculate_company_multiplier`
(scoring.rs:80-83): the literals `0.8` and `0.4` are rounded to binary32, and
every `f32` operation rounds its exact result (`company.priority as f32` and
`10.0` are exact). -/
def calculate_company_multiplier_f32 (company : Company) : ℚ :=
  round32 (round32 0.8
    + round32 (round32 ((company.priority : ℚ) / 10) * round32 0.4))

/-- A company with the highest priority. -/
def company_priority_ten : Company :=
  { id := "c10", name := some "Big", location := none, dateStart := "2019",
    dateEnd := none, summary := none, description := none, tags := [],
    priority := 10, link := none, children := [] }

/-- A two-entry weight map. -/
def weights_ab : TagWeights := [("a", 1), ("b", 0)]

/-- The same two bindings in the opposite order. -/
def weights_ba : TagWeights := [("b", 0), ("a", 1)]

/-- A role profile using `weights_ab`. -/
def profile_ab : RoleProfile :=
  { id := "r2", name := "Role2", description := none, tagWeights := weights_ab,
    scoringWeights := { tagRelevance := 1, priority := 0 } }

/-- The single scored bullet produced on `resume_with_empty_desc`. -/
def example_virtual_scored : ScoredBullet :=
  score_description_as_bullet position_with_empty_desc company_with_empty_desc
    example_profile

/-! ## Theorems -/

/-- The accumulating fold of `calculate_tag_relevance` computes the sum of the
matched weights and the number of matched tags. -/
theorem tag_fold_eq (tag_weights : TagWeights) :
    ∀ (tags : List Tag) (init : ℚ × ℕ),
      tags.foldl
          (fun (acc : ℚ × ℕ) tag =>
            match tag_weights.get tag with
            | some weight => (acc.1 + weight, acc.2 + 1)
            | none => acc)
          init
        = (init.1 + ((tags.filter (fun tag => (tag_weights.get tag).isSome)).map
              (fun tag => (tag_weights.get tag).getD 0)).sum,
           init.2 + (tags.filter (fun tag => (tag_weights.get tag).isSome)).length) := by
  intro tags
  induction tags with
  | nil => intro init; simp
  | cons t ts ih =>
    intro init
    cases h : tag_weights.get t with
    | none =>
      simp only [List.foldl_cons, h, List.filter_cons]
      simp [h, ih init]
    | some w =>
      simp only [List.foldl_cons, h]
      rw [ih (init.1 + w, init.2 + 1)]
      simp only [List.filter_cons, h, Option.isSome_some, if_pos, List.map_cons,
        List.sum_cons, List.length_cons, Option.getD_some, Prod.mk.injEq]
      repeat' constructor
      all_goals ring

/-- An empty lookup everywhere forces the filtered list to be empty. -/
theorem filter_isSome_nil (tags : List Tag) (tag_weights : TagWeights)
    (h : tag_weights.isEmpty = true) :
    tags.filter (fun tag => (tag_weights.get tag).isSome) = [] := by
  cases tag_weights with
  | nil =>
    have hget : ∀ tag : Tag, TagWeights.get [] tag = none := fun _ => rfl
    simp [hget]
  | cons p ps => simp [List.isEmpty] at h

/-- C1: for every bullet, position, company and role profile, `score_bullet`
returns exactly `baseScore * companyMultiplier * positionMultiplier`, with
`baseScore = tagRelevance(bullet.tags) * scoringWeights.tagRelevance
+ (bullet.priority / 10) * scoringWeights.priority`,
`companyMultiplier = 0.8 + (company.priority / 10) * 0.4`, and
`positionMultiplier = (0.8 + (position.priority / 10) * 0.4) * (0.9 +
tagRelevance(position.tags) * 0.2` when the position has tags, else `* 1)`. -/
theorem score_bullet_eq_claim_formula (bullet : Bullet) (position : Position)
    (company : Company) (role_profile : RoleProfile) :
    score_bullet bullet position company role_profile
      = score_bullet_claim_formula bullet position company role_profile := by
  unfold score_bullet score_bullet_claim_formula calculate_company_multiplier
    calculate_position_multiplier
  by_cases h : position.tags = []
  · simp [h]
  · simp [h, List.isEmpty_iff]

/-- C2: tag relevance is the sum of the weights of the matched tags divided by
the number of matched tags; unmatched tags contribute to neither the sum nor
the denominator, and the result is exactly `0` when the tag list is empty or
no tag matches. -/
theorem tag_relevance_eq_claim_formula (tags : List Tag) (tag_weights : TagWeights) :
    calculate_tag_relevance tags tag_weights
      = tag_relevance_claim_formula tags tag_weights := by
  unfold calculate_tag_relevance tag_relevance_claim_formula
  by_cases htags : tags.isEmpty
  · have h0 : tags = [] := by simpa [List.isEmpty_iff] using htags
    subst h0
    simp
  by_cases hm : tag_weights.isEmpty
  · rw [filter_isSome_nil tags tag_weights hm]
    simp [htags, hm]
  · simp only [htags, hm, Bool.or_self, Bool.false_or, if_neg, Bool.not_eq_true]
    rw [tag_fold_eq tag_weights tags (0, 0)]
    simp only [zero_add]
    by_cases hcnt : (tags.filter (fun tag => (tag_weights.get tag).isSome)).length = 0
    · have hnil : tags.filter (fun tag => (tag_weights.get tag).isSome) = [] :=
        List.length_eq_zero.mp hcnt

      simp [hcnt, hnil]
    · have hne : ¬(tags.filter (fun tag => (tag_weights.get tag).isSome)).isEmpty = true := by
        cases hfil : tags.filter (fun tag => (tag_weights.get tag).isSome) with
        | nil => exact absurd (by simp [hfil]) hcnt
        | cons a l => simp
      simp [hcnt, hne]

/-- Pointwise-equal functions give equal `flatMap`s. -/
theorem flatMap_ext {α β : Type _} (l : List α) (f g : α → List β)
    (h : ∀ a ∈ l, f a = g a) : l.flatMap f = l.flatMap g := by
  induction l with
  | nil => rfl
  | cons a t ih =>
    simp only [List.flatMap_cons, h a (List.mem_cons_self a t)]
    rw [ih fun x hx => h x (List.mem_cons_of_mem a hx)]

/-- C3 counterexample: the claim says a virtual bullet is synthesized only for
positions with a non-empty description, but on a resume whose only position
has `description = Some("")` — an empty description — `select_bullets` still
synthesizes (and returns) the virtual bullet `"p1-description"` whose
description text is empty. -/
theorem select_bullets_synthesizes_for_empty_description :
    position_with_empty_desc.description = some ""
      ∧ (select_bullets resume_with_empty_desc example_profile
          SelectionConfig.default).map (fun sb => sb.bullet.id)
        = ["p1-description"]
      ∧ (select_bullets resume_with_empty_desc example_profile
          SelectionConfig.default).map (fun sb => sb.bullet.description)
        = [""] := by
  refine ⟨rfl, ?_, ?_⟩ <;>
    simp [select_bullets, generate_candidates, resume_with_empty_desc,
      company_with_empty_desc, position_with_empty_desc, example_profile,
      score_description_as_bullet, SelectionConfig.default,
      apply_diversity_constraints, apply_diversity_go, capReached]

/-- C3 (amended): during candidate generation `select_bullets` synthesizes
exactly one virtual bullet for each position whose description is *present*
(`is_some()`, including a present empty string) and for no other position,
with id `"{positionId}-description"`, the position's tags, priority and
description text, scored by the same `score_bullet` as a real bullet. -/
theorem generate_candidates_eq_claim_spec (resume_data : ResumeData)
    (role_profile : RoleProfile) :
    generate_candidates resume_data role_profile
      = generate_candidates_claim_spec resume_data role_profile := by
  unfold generate_candidates generate_candidates_claim_spec
  refine flatMap_ext _ _ _ fun company _ => ?_
  refine flatMap_ext _ _ _ fun position _ => ?_
  cases hd : position.description with
  | none => simp [hd]
  | some desc => simp [hd, score_description_as_bullet]

/-- The selection loop only ever appends, in order, a subsequence of its
remaining input after the already-selected prefix. -/
theorem apply_diversity_go_append (config : SelectionConfig) :
    ∀ (l selected : List ScoredBullet) (cc pc : String → ℕ),
      ∃ t, apply_diversity_go config l selected cc pc = selected ++ t ∧ t.Sublist l := by
  intro l
  induction l with
  | nil =>
    intro selected cc pc
    exact ⟨[], by simp [apply_diversity_go], List.nil_sublist _⟩
  | cons b rest ih =>
    intro selected cc pc
    by_cases h1 : config.maxBullets ≤ selected.length
    · exact ⟨[], by simp [apply_diversity_go, h1], List.nil_sublist _⟩
    · cases h2 : capReached config.maxPerCompany (cc b.companyId) with
      | true =>
        obtain ⟨t, ht, hs⟩ := ih selected cc pc
        exact ⟨t, by simp [apply_diversity_go, h1, h2, ht], hs.cons b⟩
      | false =>
        cases h3 : capReached config.maxPerPosition (pc b.positionId) with
        | true =>
          obtain ⟨t, ht, hs⟩ := ih selected cc pc
          exact ⟨t, by simp [apply_diversity_go, h1, h2, h3, ht], hs.cons b⟩
        | false =>
          obtain ⟨t, ht, hs⟩ := ih (selected ++ [b])
            (fun key => if key = b.companyId then cc key + 1 else cc key)
            (fun key => if key = b.positionId then pc key + 1 else pc key)
          exact ⟨b :: t, by simp [apply_diversity_go, h1, h2, h3, ht], hs.cons₂ b⟩

/-- The final selection is a subsequence of the sorted candidate list. -/
theorem apply_diversity_constraints_sublist (s : List ScoredBullet)
    (config : SelectionConfig) :
    (apply_diversity_constraints s config).Sublist s := by
  obtain ⟨t, ht, hs⟩ :=
    apply_diversity_go_append config s [] (fun _ => 0) (fun _ => 0)
  unfold apply_diversity_constraints
  rw [ht]
  simpa using hs

/-- Company-cap invariant of the selection loop: if the company counter
dominates the count of already-selected items for a key and is itself at most
the cap, then the loop keeps that key's count at most the cap. -/
theorem apply_diversity_go_company_cap (config : SelectionConfig) (cap : ℕ)
    (key : String) (hcap : config.maxPerCompany = some cap) :
    ∀ (l selected : List ScoredBullet) (cc pc : String → ℕ),
      selected.countP (fun sb => sb.companyId == key) ≤ cc key → cc key ≤ cap →
      (apply_diversity_go config l selected cc pc).countP
          (fun sb => sb.companyId == key) ≤ cap := by
  intro l
  induction l with
  | nil =>
    intro selected cc pc hinv hle
    simpa [apply_diversity_go] using hinv.trans hle
  | cons b rest ih =>
    intro selected cc pc hinv hle
    by_cases h1 : config.maxBullets ≤ selected.length
    · simpa [apply_diversity_go, h1] using hinv.trans hle
    · cases h2 : capReached config.maxPerCompany (cc b.companyId) with
      | true =>
        simpa [apply_diversity_go, h1, h2] using ih selected cc pc hinv hle
      | false =>
        cases h3 : capReached config.maxPerPosition (pc b.positionId) with
        | true =>
          simpa [apply_diversity_go, h1, h2, h3] using ih selected cc pc hinv hle
        | false =>
          have hlt : cc b.companyId < cap := by
            simpa [capReached, hcap] using h2
          simp only [apply_diversity_go, h1, h2, h3, if_false, if_true,
            Bool.false_eq_true, if_neg, not_false_iff]
          by_cases hk : b.companyId = key
          · subst hk
            refine ih (selected ++ [b]) _ _ ?_ ?_
            · rw [if_pos rfl]
              simp only [List.countP_append, List.countP_cons, List.countP_nil,
                beq_self_eq_true, if_true]
              omega
            · rw [if_pos rfl]
              omega
          · have hbk : (b.companyId == key) = false := by
              simpa using hk
            have hne : ¬ key = b.companyId := fun h => hk h.symm
            refine ih (selected ++ [b]) _ _ ?_ ?_
            · rw [if_neg hne]
              simp [List.countP_append, List.countP_cons, hbk]
              omega
            · rw [if_neg hne]
              exact hle

/-- Position-cap invariant of the selection loop, mirror of the company one. -/
theorem apply_diversity_go_position_cap (config : SelectionConfig) (cap : ℕ)
    (key : String) (hcap : config.maxPerPosition = some cap) :
    ∀ (l selected : List ScoredBullet) (cc pc : String → ℕ),
      selected.countP (fun sb => sb.positionId == key) ≤ pc key → pc key ≤ cap →
      (apply_diversity_go config l selected cc pc).countP
          (fun sb => sb.positionId == key) ≤ cap := by
  intro l
  induction l with
  | nil =>
    intro selected cc pc hinv hle
    simpa [apply_diversity_go] using hinv.trans hle
  | cons b rest ih =>
    intro selected cc pc hinv hle
    by_cases h1 : config.maxBullets ≤ selected.length
    · simpa [apply_diversity_go, h1] using hinv.trans hle
    · cases h2 : capReached config.maxPerCompany (cc b.companyId) with
      | true =>
        simpa [apply_diversity_go, h1, h2] using ih selected cc pc hinv hle
      | false =>
        cases h3 : capReached config.maxPerPosition (pc b.positionId) with
        | true =>
          simpa [apply_diversity_go, h1, h2, h3] using ih selected cc pc hinv hle
        | false =>
          have hlt : pc b.positionId < cap := by
            simpa [capReached, hcap] using h3
          simp only [apply_diversity_go, h1, h2, h3, if_false, if_true,
            Bool.false_eq_true, if_neg, not_false_iff]
          by_cases hk : b.positionId = key
          · subst hk
            refine ih (selected ++ [b]) _ _ ?_ ?_
            · rw [if_pos rfl]
              simp only [List.countP_append, List.countP_cons, List.countP_nil,
                beq_self_eq_true, if_true]
              omega
            · rw [if_pos rfl]
              omega
          · have hbk : (b.positionId == key) = false := by
              simpa using hk
            have hne : ¬ key = b.positionId := fun h => hk h.symm
            refine ih (selected ++ [b]) _ _ ?_ ?_
            · rw [if_neg hne]
              simp [List.countP_append, List.countP_cons, hbk]
              omega
            · rw [if_neg hne]
              exact hle

/-- Total-cap invariant: the loop never grows the selection past
`config.maxBullets`. -/
theorem apply_diversity_go_length (config : SelectionConfig) :
    ∀ (l selected : List ScoredBullet) (cc pc : String → ℕ),
      selected.length ≤ config.maxBullets →
      (apply_diversity_go config l selected cc pc).length ≤ config.maxBullets := by
  intro l
  induction l with
  | nil =>
    intro selected cc pc hle
    simpa [apply_diversity_go] using hle
  | cons b rest ih =>
    intro selected cc pc hle
    by_cases h1 : config.maxBullets ≤ selected.length
    · simpa [apply_diversity_go, h1] using hle
    · cases h2 : capReached config.maxPerCompany (cc b.companyId) with
      | true =>
        simpa [apply_diversity_go, h1, h2] using ih selected cc pc hle
      | false =>
        cases h3 : capReached config.maxPerPosition (pc b.positionId) with
        | true =>
          simpa [apply_diversity_go, h1, h2, h3] using ih selected cc pc hle
        | false =>
          simp only [apply_diversity_go, h1, h2, h3, if_false, Bool.false_eq_true,
            if_neg, not_false_iff]
          refine ih (selected ++ [b]) _ _ ?_
          simp only [List.length_append, List.length_cons, List.length_nil]
          omega

/-- C4: every company id contributes at most `maxPerCompany` items (when that
cap is set), every position id at most `maxPerPosition` items (when set), the
total output length is at most `maxBullets`; reaching the total cap stops the
loop entirely (it returns the current selection whatever remains), while a
candidate blocked only by a per-company or per-position cap is skipped and the
loop continues with the same state on the later candidates. -/
theorem select_bullets_quotas (resume_data : ResumeData) (role_profile : RoleProfile)
    (config : SelectionConfig) :
    (∀ cap, config.maxPerCompany = some cap → ∀ cid,
        (select_bullets resume_data role_profile config).countP
            (fun sb => sb.companyId == cid) ≤ cap)
    ∧ (∀ cap, config.maxPerPosition = some cap → ∀ pid,
        (select_bullets resume_data role_profile config).countP
            (fun sb => sb.positionId == pid) ≤ cap)
    ∧ (select_bullets resume_data role_profile config).length ≤ config.maxBullets
    ∧ (∀ (l selected : List ScoredBullet) (cc pc : String → ℕ),
        config.maxBullets ≤ selected.length →
        apply_diversity_go config l selected cc pc = selected)
    ∧ (∀ (b : ScoredBullet) (rest selected : List ScoredBullet) (cc pc : String → ℕ),
        selected.length < config.maxBullets →
        (capReached config.maxPerCompany (cc b.companyId) = true
          ∨ capReached config.maxPerPosition (pc b.positionId) = true) →
        apply_diversity_go config (b :: rest) selected cc pc
          = apply_diversity_go config rest selected cc pc) := by
  refine ⟨?_, ?_, ?_, ?_, ?_⟩
  · intro cap hcap cid
    exact apply_diversity_go_company_cap config cap cid hcap _ [] _ _
      (by simp) (Nat.zero_le cap)
  · intro cap hcap pid
    exact apply_diversity_go_position_cap config cap pid hcap _ [] _ _
      (by simp) (Nat.zero_le cap)
  · exact apply_diversity_go_length config _ [] _ _ (Nat.zero_le _)
  · intro l selected cc pc hstop
    cases l with
    | nil => simp [apply_diversity_go]
    | cons b rest => simp [apply_diversity_go, hstop]
  · intro b rest selected cc pc hlen hblocked
    have h1 : ¬ config.maxBullets ≤ selected.length := Nat.not_le.mpr hlen
    cases h2 : capReached config.maxPerCompany (cc b.companyId) with
    | true => simp [apply_diversity_go, h1, h2]
    | false =>
      have h3 : capReached config.maxPerPosition (pc b.positionId) = true := by
        rcases hblocked with hb | hb
        · rw [hb] at h2
          exact absurd h2 (by simp)
        · exact hb
      simp [apply_diversity_go, h1, h2, h3]

/-- The descending-score comparator is transitive. -/
theorem score_desc_trans (a b c : ScoredBullet) :
    decide (b.score ≤ a.score) → decide (c.score ≤ b.score) →
    decide (c.score ≤ a.score) := by
  intro h1 h2
  exact decide_eq_true (le_trans (of_decide_eq_true h2) (of_decide_eq_true h1))

/-- The descending-score comparator is total. -/
theorem score_desc_total (a b : ScoredBullet) :
    decide (b.score ≤ a.score) || decide (a.score ≤ b.score) := by
  rcases le_total b.score a.score with h | h
  · simp [h]
  · simp [h]

/-- C5: the output of `select_bullets` is sorted by score descending, and
candidates with equal scores keep their original relative generation order:
for every score value, the equal-score items of the output form a subsequence
of the equal-score items of the candidate pool in generation order (the sort
is stable and the quota filter only skips, never reorders). -/
theorem select_bullets_sorted_and_stable (resume_data : ResumeData)
    (role_profile : RoleProfile) (config : SelectionConfig) :
    (select_bullets resume_data role_profile config).Pairwise
        (fun a b => b.score ≤ a.score)
    ∧ ∀ s : ℚ,
        ((select_bullets resume_data role_profile config).filter
            (fun sb => decide (sb.score = s))).Sublist
          ((generate_candidates resume_data role_profile).filter
            (fun sb => decide (sb.score = s))) := by
  have hsub : (select_bullets resume_data role_profile config).Sublist
      ((generate_candidates resume_data role_profile).mergeSort
        fun a b => decide (b.score ≤ a.score)) :=
    apply_diversity_constraints_sublist _ config
  constructor
  · have hsorted := @List.sorted_mergeSort ScoredBullet
      (fun a b : ScoredBullet => decide (b.score ≤ a.score))
      (fun a b c => score_desc_trans a b c) score_desc_total
      (generate_candidates resume_data role_profile)
    have hsorted2 := hsorted.sublist hsub
    exact hsorted2.imp fun h => of_decide_eq_true h
  · intro s
    set pool := generate_candidates resume_data role_profile with hpool
    set sorted := pool.mergeSort fun a b => decide (b.score ≤ a.score) with hsorted
    have hperm : sorted.Perm pool := List.mergeSort_perm pool _
    have hfil : sorted.filter (fun sb => decide (sb.score = s))
        = pool.filter (fun sb => decide (sb.score = s)) := by
      have hc : (pool.filter (fun sb => decide (sb.score = s))).Pairwise
          (fun a b : ScoredBullet => decide (b.score ≤ a.score) = true) := by
        refine List.pairwise_of_forall_mem_list ?_
        intro a ha b hb
        have ha2 := (List.mem_filter.mp ha).2
        have hb2 := (List.mem_filter.mp hb).2
        have ha3 : a.score = s := of_decide_eq_true ha2
        have hb3 : b.score = s := of_decide_eq_true hb2
        exact decide_eq_true (le_of_eq (hb3.trans ha3.symm))
      have hcs : (pool.filter (fun sb => decide (sb.score = s))).Sublist sorted :=
        List.sublist_mergeSort (fun a b c => score_desc_trans a b c)
          score_desc_total hc (List.filter_sublist pool)
      have h1 : (pool.filter (fun sb => decide (sb.score = s))).Sublist
          (sorted.filter (fun sb => decide (sb.score = s))) := by
        have hf := hcs.filter (fun sb => decide (sb.score = s))
        simpa [List.filter_filter, Bool.and_self] using hf
      have h2 : (sorted.filter (fun sb => decide (sb.score = s))).Perm
          (pool.filter (fun sb => decide (sb.score = s))) := hperm.filter _
      exact (h1.eq_of_length h2.length_eq.symm).symm
    have hres := hsub.filter (fun sb => decide (sb.score = s))
    rw [hfil] at hres
    exact hres

/-- C10: every element of the output originates from the input tree — its
bullet is a child bullet of some position of some company (scored by
`score_bullet`) or the synthesized description-bullet of a position whose
description is present, its `companyId`/`companyName`/`positionId`/
`positionName` are exactly those of the owning company and position — and no
source occurrence contributes more than one output element: the multiplicity
of any scored bullet in the output never exceeds its multiplicity in the
generated candidate pool. -/
theorem select_bullets_provenance (resume_data : ResumeData)
    (role_profile : RoleProfile) (config : SelectionConfig) :
    (∀ sb ∈ select_bullets resume_data role_profile config,
      ∃ company, company ∈ resume_data.experience
        ∧ ∃ position, position ∈ company.children
        ∧ sb.companyId = company.id ∧ sb.companyName = company.name
        ∧ sb.positionId = position.id ∧ sb.positionName = position.name
        ∧ ((sb.bullet ∈ position.children
              ∧ sb.score = score_bullet sb.bullet position company role_profile)
            ∨ (position.description.isSome = true
              ∧ sb = score_description_as_bullet position company role_profile)))
    ∧ ∀ x : ScoredBullet,
        (select_bullets resume_data role_profile config).count x
          ≤ (generate_candidates resume_data role_profile).count x := by
  have hsub : (select_bullets resume_data role_profile config).Sublist
      ((generate_candidates resume_data role_profile).mergeSort
        fun a b => decide (b.score ≤ a.score)) :=
    apply_diversity_constraints_sublist _ config
  have hperm : ((generate_candidates resume_data role_profile).mergeSort
      fun a b => decide (b.score ≤ a.score)).Perm
        (generate_candidates resume_data role_profile) :=
    List.mergeSort_perm _ _
  constructor
  · intro sb hsb
    have hpool : sb ∈ generate_candidates resume_data role_profile :=
      List.mem_mergeSort.mp (hsub.subset hsb)
    unfold generate_candidates at hpool
    rw [List.mem_flatMap] at hpool
    obtain ⟨company, hcm, hin⟩ := hpool
    rw [List.mem_flatMap] at hin
    obtain ⟨position, hpm, hin⟩ := hin
    rw [List.mem_append] at hin
    refine ⟨company, hcm, position, hpm, ?_⟩
    rcases hin with hin | hin
    · by_cases hdesc : position.description.isSome = true
      · rw [if_pos hdesc, List.mem_singleton] at hin
        subst hin
        exact ⟨rfl, rfl, rfl, rfl, Or.inr ⟨hdesc, rfl⟩⟩
      · rw [if_neg hdesc] at hin
        exact absurd hin (List.not_mem_nil sb)
    · rw [List.mem_map] at hin
      obtain ⟨b, hb, hmk⟩ := hin
      subst hmk
      exact ⟨rfl, rfl, rfl, rfl, Or.inl ⟨hb, rfl⟩⟩
  · intro x
    calc (select_bullets resume_data role_profile config).count x
        ≤ ((generate_candidates resume_data role_profile).mergeSort
            fun a b => decide (b.score ≤ a.score)).count x := hsub.count_le x
      _ = (generate_candidates resume_data role_profile).count x := hperm.count_eq x

/-- Two weight maps with the same lookup function agree on emptiness (an
association list with no visible binding is empty). -/
theorem get_ext_isEmpty (w1 w2 : TagWeights) (h : ∀ t, w1.get t = w2.get t) :
    w1.isEmpty = w2.isEmpty := by
  cases w1 with
  | nil =>
    cases w2 with
    | nil => rfl
    | cons p ps =>
      have hp := h p.1
      simp [TagWeights.get, List.find?] at hp
  | cons p ps =>
    cases w2 with
    | nil =>
      have hp := h p.1
      simp [TagWeights.get, List.find?] at hp
    | cons q qs => rfl

/-- Tag relevance depends on the weight map only through its lookup
function. -/
theorem calculate_tag_relevance_get_ext (w1 w2 : TagWeights)
    (h : ∀ t, w1.get t = w2.get t) (tags : List Tag) :
    calculate_tag_relevance tags w1 = calculate_tag_relevance tags w2 := by
  have hfun : (fun (acc : ℚ × ℕ) tag =>
      match w1.get tag with
      | some weight => (acc.1 + weight, acc.2 + 1)
      | none => acc)
      = (fun (acc : ℚ × ℕ) tag =>
      match w2.get tag with
      | some weight => (acc.1 + weight, acc.2 + 1)
      | none => acc) := by
    funext acc tag
    rw [h tag]
  unfold calculate_tag_relevance
  rw [get_ext_isEmpty w1 w2 h, hfun]

/-- Function `score_bullet` depends on `tagWeights` only through its lookup
function. -/
theorem score_bullet_get_ext (bullet : Bullet) (position : Position)
    (company : Company) (role_profile : RoleProfile) (w2 : TagWeights)
    (h : ∀ t, role_profile.tagWeights.get t = w2.get t) :
    score_bullet bullet position company role_profile
      = score_bullet bullet position company { role_profile with tagWeights := w2 } := by
  unfold score_bullet calculate_position_multiplier
  rw [calculate_tag_relevance_get_ext _ _ h, calculate_tag_relevance_get_ext _ _ h]

/-- Function `score_description_as_bullet` depends on `tagWeights` only through its
lookup function. -/
theorem score_description_as_bullet_get_ext (position : Position)
    (company : Company) (role_profile : RoleProfile) (w2 : TagWeights)
    (h : ∀ t, role_profile.tagWeights.get t = w2.get t) :
    score_description_as_bullet position company role_profile
      = score_description_as_bullet position company
          { role_profile with tagWeights := w2 } := by
  simp only [score_description_as_bullet]
  rw [score_bullet_get_ext _ _ _ _ _ h]

/-- Candidate generation depends on `tagWeights` only through its lookup
function. -/
theorem generate_candidates_get_ext (resume_data : ResumeData)
    (role_profile : RoleProfile) (w2 : TagWeights)
    (h : ∀ t, role_profile.tagWeights.get t = w2.get t) :
    generate_candidates resume_data role_profile
      = generate_candidates resume_data { role_profile with tagWeights := w2 } := by
  unfold generate_candidates
  refine flatMap_ext _ _ _ fun company _ => ?_
  refine flatMap_ext _ _ _ fun position _ => ?_
  have hmap : (fun bullet : Bullet =>
      ({ bullet := bullet
         score := score_bullet bullet position company role_profile
         companyId := company.id
         companyName := company.name
         positionId := position.id
         positionName := position.name } : ScoredBullet))
      = (fun bullet : Bullet =>
      ({ bullet := bullet
         score := score_bullet bullet position company
           { role_profile with tagWeights := w2 }
         companyId := company.id
         companyName := company.name
         positionId := position.id
         positionName := position.name } : ScoredBullet)) := by
    funext bullet
    rw [score_bullet_get_ext _ _ _ _ _ h]
  rw [hmap, score_description_as_bullet_get_ext _ _ _ _ h]

/-- C8: `select_bullets` is deterministic — repeated calls on the same input
give the same output, and the output does not depend on how the `tagWeights`
map is ordered or represented: any two maps with the same lookup function
yield the same bullets, the same exact scores, in the same order. -/
theorem select_bullets_deterministic :
    (∀ (resume_data : ResumeData) (role_profile : RoleProfile)
        (config : SelectionConfig),
      select_bullets resume_data role_profile config
        = select_bullets resume_data role_profile config)
    ∧ ∀ (resume_data : ResumeData) (role_profile : RoleProfile)
        (w2 : TagWeights) (config : SelectionConfig),
      (∀ t, role_profile.tagWeights.get t = w2.get t) →
      select_bullets resume_data role_profile config
        = select_bullets resume_data { role_profile with tagWeights := w2 } config := by
  refine ⟨fun _ _ _ => rfl, ?_⟩
  intro resume_data role_profile w2 config h
  unfold select_bullets
  rw [generate_candidates_get_ext resume_data role_profile w2 h]

/-- The `matched_tags == 0` guard keeps the division total: the fallible tag
relevance never fails and agrees with the total one. -/
theorem calculate_tag_relevance_checked_eq (tags : List Tag)
    (tag_weights : TagWeights) :
    calculate_tag_relevance_checked tags tag_weights
      = some (calculate_tag_relevance tags tag_weights) := by
  unfold calculate_tag_relevance_checked calculate_tag_relevance
  by_cases hg : (tags.isEmpty || tag_weights.isEmpty) = true
  · simp [hg]
  · simp only [hg, if_false, Bool.false_eq_true]
    set acc := tags.foldl
      (fun (acc : ℚ × ℕ) tag =>
        match tag_weights.get tag with
        | some weight => (acc.1 + weight, acc.2 + 1)
        | none => acc)
      (0, 0) with hacc
    by_cases hc : acc.2 = 0
    · simp [hc]
    · have htwo : ((acc.2 : ℚ)) ≠ 0 := by
        exact_mod_cast hc
      simp [hc, checked_div, htwo]

/-- The fallible position multiplier never fails and agrees with the total
one. -/
theorem calculate_position_multiplier_checked_eq (position : Position)
    (tag_weights : TagWeights) :
    calculate_position_multiplier_checked position tag_weights
      = some (calculate_position_multiplier position tag_weights) := by
  unfold calculate_position_multiplier_checked calculate_position_multiplier
  by_cases ht : position.tags.isEmpty
  · simp [ht]
  · simp [ht, calculate_tag_relevance_checked_eq]

/-- C9: `select_bullets` never fails: every score it computes is an actual
(finite, non-NaN) number — the fallible scoring pipeline, in which the one
division of the algorithm is allowed to fail, always returns `some` of the
total score, so the sort comparison always succeeds — and on a `ResumeData`
with empty `experience` it returns the empty list rather than an error. -/
theorem select_bullets_total_and_empty :
    (∀ (bullet : Bullet) (position : Position) (company : Company)
        (role_profile : RoleProfile),
      score_bullet_checked bullet position company role_profile
        = some (score_bullet bullet position company role_profile))
    ∧ ∀ (personal : PersonalInfo) (summary : Option String)
        (education : Option (List Education))
        (skills : Option (List (String × List String)))
        (roleProfiles : Option (List RoleProfile))
        (role_profile : RoleProfile) (config : SelectionConfig),
      select_bullets
          { personal := personal, summary := summary, experience := [],
            education := education, skills := skills, roleProfiles := roleProfiles }
          role_profile config = [] := by
  constructor
  · intro bullet position company role_profile
    unfold score_bullet_checked score_bullet
    rw [calculate_tag_relevance_checked_eq, calculate_position_multiplier_checked_eq]
    simp [mul_comm, mul_assoc, mul_left_comm]
  · intro personal summary education skills roleProfiles role_profile config
    simp [select_bullets, generate_candidates, apply_diversity_constraints,
      apply_diversity_go]

/-- The selection loop ignores `minPerCompany`: configs equal on the other
three fields drive it identically. -/
theorem apply_diversity_go_full_min_irrelevant (c1 c2 : SelectionConfigFull)
    (hb : c1.maxBullets = c2.maxBullets)
    (hc : c1.maxPerCompany = c2.maxPerCompany)
    (hp : c1.maxPerPosition = c2.maxPerPosition) :
    ∀ (l selected : List ScoredBullet) (cc pc : String → ℕ),
      apply_diversity_go_full c1 l selected cc pc
        = apply_diversity_go_full c2 l selected cc pc := by
  intro l
  induction l with
  | nil => intro selected cc pc; rfl
  | cons b rest ih =>
    intro selected cc pc
    simp only [apply_diversity_go_full, hb, hc, hp]
    by_cases h1 : capReached c2.maxBullets selected.length = true
    · simp [h1]
    · cases h2 : capReached c2.maxPerCompany (cc b.companyId) with
      | true => simp [h1, h2, ih]
      | false =>
        cases h3 : capReached c2.maxPerPosition (pc b.positionId) with
        | true => simp [h1, h2, h3, ih]
        | false => simp [h1, h2, h3, ih]

/-- C7: `minPerCompany` is accepted in the configuration surface of the
resume-core selector but is not enforced — two configurations that differ
only in `minPerCompany` produce identical output, and no minimum-per-company
guarantee holds: with `minPerCompany = 2` a company can still contribute a
single item. -/
theorem min_per_company_inert :
    (∀ (resume_data : ResumeData) (role_profile : RoleProfile)
        (config : SelectionConfigFull) (m1 m2 : Option ℕ),
      select_bullets_full resume_data role_profile
          { config with minPerCompany := m1 }
        = select_bullets_full resume_data role_profile
            { config with minPerCompany := m2 })
    ∧ config_min_two.minPerCompany = some 2
    ∧ (select_bullets_full resume_with_empty_desc example_profile
        config_min_two).countP (fun sb => sb.companyId == "c1") = 1 := by
  refine ⟨?_, rfl, ?_⟩
  · intro resume_data role_profile config m1 m2
    unfold select_bullets_full
    exact apply_diversity_go_full_min_irrelevant
      { config with minPerCompany := m1 } { config with minPerCompany := m2 }
      rfl rfl rfl _ _ _ _
  · simp [select_bullets_full, generate_candidates, resume_with_empty_desc,
      company_with_empty_desc, position_with_empty_desc, example_profile,
      score_description_as_bullet, apply_diversity_go_full, capReached,
      config_min_two]

/-- A weight looked up in a map whose entries lie in `[0, 1]` lies in
`[0, 1]`. -/
theorem get_weight_bounds (tag_weights : TagWeights)
    (h : ∀ entry ∈ tag_weights, 0 ≤ entry.2 ∧ entry.2 ≤ 1) (t : Tag) (w : ℚ)
    (hg : tag_weights.get t = some w) : 0 ≤ w ∧ w ≤ 1 := by
  unfold TagWeights.get at hg
  rw [Option.map_eq_some'] at hg
  obtain ⟨entry, hfind, hsnd⟩ := hg
  have hmem := List.mem_of_find?_eq_some hfind
  exact hsnd ▸ h entry hmem

/-- The matched weights sum to something between 0 and the number of matched
tags, when all weights lie in `[0, 1]`. -/
theorem matched_weights_sum_bounds (tag_weights : TagWeights)
    (h : ∀ entry ∈ tag_weights, 0 ≤ entry.2 ∧ entry.2 ≤ 1) (tags : List Tag) :
    0 ≤ ((tags.filter (fun tag => (tag_weights.get tag).isSome)).map
        (fun tag => (tag_weights.get tag).getD 0)).sum
    ∧ ((tags.filter (fun tag => (tag_weights.get tag).isSome)).map
        (fun tag => (tag_weights.get tag).getD 0)).sum
      ≤ ((tags.filter (fun tag => (tag_weights.get tag).isSome)).length : ℚ) := by
  induction tags with
  | nil => simp
  | cons t ts ih =>
    cases hg : tag_weights.get t with
    | none => simpa [List.filter_cons, hg] using ih
    | some w =>
      have hw := get_weight_bounds tag_weights h t w hg
      simp only [List.filter_cons, hg, Option.isSome_some, if_pos, List.map_cons,
        List.sum_cons, List.length_cons, Option.getD_some]
      push_cast
      constructor
      · linarith [ih.1, hw.1]
      · linarith [ih.2, hw.2]

/-- Tag relevance lies in `[0, 1]` whenever all map weights lie in
`[0, 1]`. -/
theorem calculate_tag_relevance_bounds (tags : List Tag)
    (tag_weights : TagWeights)
    (h : ∀ entry ∈ tag_weights, 0 ≤ entry.2 ∧ entry.2 ≤ 1) :
    0 ≤ calculate_tag_relevance tags tag_weights
      ∧ calculate_tag_relevance tags tag_weights ≤ 1 := by
  unfold calculate_tag_relevance
  by_cases hg : (tags.isEmpty || tag_weights.isEmpty) = true
  · simp [hg]
  · simp only [hg, if_false, Bool.false_eq_true]
    rw [tag_fold_eq tag_weights tags (0, 0)]
    simp only [zero_add]
    by_cases hc : (tags.filter (fun tag => (tag_weights.get tag).isSome)).length = 0
    · simp [hc]
    · simp only [hc, if_false]
      obtain ⟨hs0, hsl⟩ := matched_weights_sum_bounds tag_weights h tags
      have hlpos : (0 : ℚ)
          < ((tags.filter (fun tag => (tag_weights.get tag).isSome)).length : ℚ) := by
        exact_mod_cast Nat.pos_of_ne_zero hc
      constructor
      · exact div_nonneg hs0 (le_of_lt hlpos)
      · rw [div_le_one hlpos]
        exact hsl

/-- Binary32 rounding of `5.0 / 10.0`: exactly one half. -/
theorem round32_half : round32 ((5 : ℚ) / 10) = 1 / 2 := by
  norm_num [round32, round32pos, floorLog2, flog2F, clog2F, pow2]
  rw [show Int.toNat 24 = 24 from rfl]
  rw [show ((1 : ℚ) / 2 * 2 ^ (24 : ℕ)) = 8388608 from by norm_num]
  rw [Int.fract]
  norm_num

/-- Binary32 rounding of the literal `0.4`. -/
theorem round32_point4 : round32 (0.4 : ℚ) = 13421773 / 2 ^ 25 := by
  norm_num [round32, round32pos, floorLog2, flog2F, clog2F, pow2]
  rw [show Int.toNat 25 = 25 from rfl]
  rw [show ((2 : ℚ) / 5 * 2 ^ (25 : ℕ)) = 67108864 / 5 from by norm_num]
  rw [Int.fract]
  norm_num

/-- Binary32 rounding of the literal `0.8`. -/
theorem round32_point8 : round32 (0.8 : ℚ) = 13421773 / 2 ^ 24 := by
  norm_num [round32, round32pos, floorLog2, flog2F, clog2F, pow2]
  rw [show Int.toNat 24 = 24 from rfl]
  rw [show ((4 : ℚ) / 5 * 2 ^ (24 : ℕ)) = 67108864 / 5 from by norm_num]
  rw [Int.fract]
  norm_num

/-- The product `0.5 * round32(0.4)` is exactly representable in binary32 and
rounds to itself. -/
theorem round32_half_mul_point4 :
    round32 (1 / 2 * (13421773 / 2 ^ 25) : ℚ) = 13421773 / 2 ^ 26 := by
  norm_num [round32, round32pos, floorLog2, flog2F, clog2F, pow2]
  rw [show Int.toNat 26 = 26 from rfl]
  rw [show ((13421773 : ℚ) / 67108864 * 2 ^ (26 : ℕ)) = 13421773 from by norm_num]
  rw [Int.fract]
  norm_num

/-- The binary32 sum `round32(0.8) + round32(0.5 * round32(0.4))` rounds to
exactly `1.0`: the exact sum is `1 + 2 ^ (-26)`, within half an ulp of 1. -/
theorem round32_point8_add : round32 (13421773 / 2 ^ 24 + 13421773 / 2 ^ 26 : ℚ) = 1 := by
  norm_num [round32, round32pos, floorLog2, flog2F, clog2F, pow2]
  rw [show Int.toNat 23 = 23 from rfl]
  rw [show ((67108865 : ℚ) / 67108864 * 2 ^ (23 : ℕ)) = 67108865 / 8 from by norm_num]
  rw [Int.fract]
  norm_num

/-- C6: for priority in 1..10 the company multiplier lies in `[0.84, 1.2]`;
for priority exactly 5 it equals 1 exactly, both in the exact-rational model
and bit-for-bit in the binary32 model (every float operation rounded to
nearest-even); and for position priority in 1..10 with all tag weights in
`[0, 1]` the position multiplier lies in `[0.7, 1.4]`. -/
theorem multiplier_bounds :
    (∀ company : Company, 1 ≤ company.priority → company.priority ≤ 10 →
      (84 / 100 : ℚ) ≤ calculate_company_multiplier company
        ∧ calculate_company_multiplier company ≤ 12 / 10)
    ∧ (∀ company : Company, company.priority = 5 →
      calculate_company_multiplier company = 1
        ∧ calculate_company_multiplier_f32 company = 1)
    ∧ ∀ (position : Position) (tag_weights : TagWeights),
        1 ≤ position.priority → position.priority ≤ 10 →
        (∀ entry ∈ tag_weights, 0 ≤ entry.2 ∧ entry.2 ≤ 1) →
        (7 / 10 : ℚ) ≤ calculate_position_multiplier position tag_weights
          ∧ calculate_position_multiplier position tag_weights ≤ 14 / 10 := by
  refine ⟨?_, ?_, ?_⟩
  · intro company h1 h10
    have hq1 : (1 : ℚ) ≤ (company.priority : ℚ) := by exact_mod_cast h1
    have hq10 : (company.priority : ℚ) ≤ 10 := by exact_mod_cast h10
    unfold calculate_company_multiplier
    norm_num
    constructor
    · linarith
    · linarith
  · intro company h5
    unfold calculate_company_multiplier calculate_company_multiplier_f32
    rw [h5]
    constructor
    · norm_num
    · simp only [Nat.cast_ofNat]
      rw [round32_half, round32_point4, round32_half_mul_point4, round32_point8,
        round32_point8_add]
  · intro position tag_weights h1 h10 hw
    have hq1 : (1 : ℚ) ≤ (position.priority : ℚ) := by exact_mod_cast h1
    have hq10 : (position.priority : ℚ) ≤ 10 := by exact_mod_cast h10
    have hprio : (84 / 100 : ℚ) ≤ 0.8 + (position.priority : ℚ) / 10 * 0.4
        ∧ 0.8 + (position.priority : ℚ) / 10 * 0.4 ≤ (12 / 10 : ℚ) := by
      norm_num
      constructor
      · linarith
      · linarith
    unfold calculate_position_multiplier
    by_cases ht : position.tags.isEmpty
    · simp only [ht, Bool.not_true, if_false, Bool.false_eq_true, mul_one]
      constructor
      · linarith [hprio.1]
      · linarith [hprio.2]
    · obtain ⟨htr0, htr1⟩ := calculate_tag_relevance_bounds position.tags tag_weights hw
      simp only [ht, Bool.not_false, if_true, Bool.false_eq_true]
      set ts := calculate_tag_relevance position.tags tag_weights
      have htm1 : (9 / 10 : ℚ) ≤ 0.9 + ts * 0.2 := by
        norm_num
        linarith
      have htm2 : 0.9 + ts * 0.2 ≤ (11 / 10 : ℚ) := by
        norm_num
        linarith
      constructor
      · nlinarith [hprio.1, hprio.2, htm1, htm2]
      · nlinarith [hprio.1, hprio.2, htm1, htm2]

/-- The two orderings of the same bindings have the same lookup function. -/
theorem weights_ab_ba_get : ∀ t, TagWeights.get weights_ab t = TagWeights.get weights_ba t := by
  intro t
  by_cases h1 : "a" = t
  · subst h1
    rfl
  · by_cases h2 : "b" = t
    · subst h2
      rfl
    · have hb1 : (("a" : String) == t) = false := beq_eq_false_iff_ne.mpr h1
      have hb2 : (("b" : String) == t) = false := beq_eq_false_iff_ne.mpr h2
      simp [weights_ab, weights_ba, TagWeights.get, List.find?, hb1, hb2]

/-- Witness for C4 at a concrete input: the default config sets both caps and
the bounds hold on a concrete selection; the loop equations fire on concrete
states. -/
theorem select_bullets_quotas_witness :
    SelectionConfig.default.maxPerCompany = some 6
    ∧ (select_bullets resume_with_empty_desc example_profile
        SelectionConfig.default).countP (fun sb => sb.companyId == "c1") ≤ 6
    ∧ (select_bullets resume_with_empty_desc example_profile
        SelectionConfig.default).countP (fun sb => sb.positionId == "p1") ≤ 4
    ∧ (select_bullets resume_with_empty_desc example_profile
        SelectionConfig.default).length ≤ SelectionConfig.default.maxBullets
    ∧ apply_diversity_go { maxBullets := 0, maxPerCompany := none, maxPerPosition := none }
        [example_virtual_scored] [] (fun _ => 0) (fun _ => 0) = []
    ∧ apply_diversity_go { maxBullets := 18, maxPerCompany := some 0, maxPerPosition := none }
        (example_virtual_scored :: []) [] (fun _ => 0) (fun _ => 0)
      = apply_diversity_go { maxBullets := 18, maxPerCompany := some 0, maxPerPosition := none }
          [] [] (fun _ => 0) (fun _ => 0) :=
  ⟨rfl,
    (select_bullets_quotas resume_with_empty_desc example_profile
      SelectionConfig.default).1 6 rfl "c1",
    (select_bullets_quotas resume_with_empty_desc example_profile
      SelectionConfig.default).2.1 4 rfl "p1",
    (select_bullets_quotas resume_with_empty_desc example_profile
      SelectionConfig.default).2.2.1,
    (select_bullets_quotas resume_with_empty_desc example_profile
      { maxBullets := 0, maxPerCompany := none, maxPerPosition := none }).2.2.2.1
      [example_virtual_scored] [] (fun _ => 0) (fun _ => 0) (by decide),
    (select_bullets_quotas resume_with_empty_desc example_profile
      { maxBullets := 18, maxPerCompany := some 0, maxPerPosition := none }).2.2.2.2
      example_virtual_scored [] [] (fun _ => 0) (fun _ => 0) (by decide)
      (Or.inl rfl)⟩

/-- Witness for C6 at concrete inputs: priority 10 and priority 5 companies,
and the priority-5 position with integer weights. -/
theorem multiplier_bounds_witness :
    ((84 / 100 : ℚ) ≤ calculate_company_multiplier company_priority_ten
      ∧ calculate_company_multiplier company_priority_ten ≤ 12 / 10)
    ∧ (calculate_company_multiplier company_with_empty_desc = 1
      ∧ calculate_company_multiplier_f32 company_with_empty_desc = 1)
    ∧ ((7 / 10 : ℚ)
        ≤ calculate_position_multiplier position_with_empty_desc weights_ab
      ∧ calculate_position_multiplier position_with_empty_desc weights_ab
        ≤ 14 / 10) :=
  ⟨multiplier_bounds.1 company_priority_ten (by decide) (by decide),
    multiplier_bounds.2.1 company_with_empty_desc rfl,
    multiplier_bounds.2.2 position_with_empty_desc weights_ab (by decide) (by decide)
      (by decide)⟩

/-- Witness for C8 at a concrete input: reordering the two bindings of the
weight map leaves the selection unchanged. -/
theorem select_bullets_deterministic_witness :
    select_bullets resume_with_empty_desc profile_ab SelectionConfig.default
      = select_bullets resume_with_empty_desc
          { profile_ab with tagWeights := weights_ba } SelectionConfig.default :=
  select_bullets_deterministic.2 resume_with_empty_desc profile_ab weights_ba
    SelectionConfig.default weights_ab_ba_get

/-- Witness for C10 at a concrete input: the single output element of the
one-position resume originates from its position as the synthesized
description bullet. -/
theorem select_bullets_provenance_witness :
    ∃ company, company ∈ resume_with_empty_desc.experience
      ∧ ∃ position, position ∈ company.children
      ∧ example_virtual_scored.companyId = company.id
      ∧ example_virtual_scored.companyName = company.name
      ∧ example_virtual_scored.positionId = position.id
      ∧ example_virtual_scored.positionName = position.name
      ∧ ((example_virtual_scored.bullet ∈ position.children
            ∧ example_virtual_scored.score = score_bullet
                example_virtual_scored.bullet position company example_profile)
          ∨ (position.description.isSome = true
            ∧ example_virtual_scored
              = score_description_as_bullet position company example_profile)) :=
  (select_bullets_provenance resume_with_empty_desc example_profile
      SelectionConfig.default).1 example_virtual_scored
    (by
      simp [example_virtual_scored, select_bullets, generate_candidates,
        resume_with_empty_desc, company_with_empty_desc, position_with_empty_desc,
        apply_diversity_constraints, apply_diversity_go, capReached,
        SelectionConfig.default])

end Resumate

